import Mathlib

/-!
Shallow embedding of the `awspolicy` policy-evaluation engine (Rust) for
checking its natural-language specification.  Each definition is translated
from the file of `src/` named in its doc comment.  External library
primitives (the regex crate, `f64`/date/IP/base64 parsing) are out of scope
per the specification and are modelled by executable Lean functions whose
doc comments state the modelling choices.
-/

namespace AwsPolicy

/-- From `src/aws/glob.rs` (`pattern_from_glob` + regex matching): the
anchored regex built from a glob is modelled directly by its language
semantics.  A literal character matches itself, a `?` (compiled to regex
`.`) matches any single character other than a newline, and a `*`
(compiled to regex `.*`) matches any possibly empty sequence of non-newline
characters, found here by searching every split of the remaining target
(the Rust regex crate's `.` does not match a newline by default). -/
def globMatchList : List Char → List Char → Bool
  | [], ts => ts.isEmpty
  | p :: ps, ts =>
    if p = '*' then
      (List.range (ts.length + 1)).any (fun i =>
        (ts.take i).all (fun c => !(c == '\n')) && globMatchList ps (ts.drop i))
    else
      match ts with
      | [] => false
      | t :: ts =>
        if p = '?' then !(t == '\n') && globMatchList ps ts
        else p == t && globMatchList ps ts

/-- From `src/aws/glob.rs` `glob_matches`: fast path of literal equality
when the glob holds neither `?` nor `*`, otherwise the compiled-regex match
(modelled by `globMatchList`). -/
def glob_matches (glob target : String) : Bool :=
  if !(glob.data.contains '?' || glob.data.contains '*') then
    glob == target
  else
    globMatchList glob.data target.data

/-- From `src/policy/constraint.rs` `pattern_matches` (regex part): the
pattern is split on `*`, the literal segments are regex-escaped and joined
by `.*` inside `^...$`.  That regex is modelled directly by its language
semantics: every character other than `*` (including `?`) is literal, and
`*` (regex `.*`) matches any possibly empty sequence of non-newline
characters, found here by searching every split of the remaining target. -/
def starMatchList : List Char → List Char → Bool
  | [], ts => ts.isEmpty
  | p :: ps, ts =>
    if p = '*' then
      (List.range (ts.length + 1)).any (fun i =>
        (ts.take i).all (fun c => !(c == '\n')) && starMatchList ps (ts.drop i))
    else
      match ts with
      | [] => false
      | t :: ts => p == t && starMatchList ps ts

/-- From `src/policy/constraint.rs` `pattern_matches`: literal equality when
the pattern holds no `*`, otherwise the anchored segment regex (modelled by
`starMatchList`). -/
def pattern_matches (pattern target : String) : Bool :=
  if !pattern.data.contains '*' then
    pattern == target
  else
    starMatchList pattern.data target.data

/-- From `src/aws/arn.rs` `ARNParseError`.  The source constructor
`MissingPrefix` is rendered here as `PrefixMissing`. -/
inductive ARNParseError where
  | InvalidFormat
  | PrefixMissing
deriving DecidableEq, Repr

/-- From `src/aws/arn.rs` `ARN`: the raw string together with the positions
of its colon separators.  The Rust code stores byte offsets; only the count
and order of the separators matter to parsing, so character positions are
stored here. -/
structure ARN where
  value : String
  separators : List Nat
deriving DecidableEq, Repr

/-- The positions of the colons of a string, as collected by the
`char_indices().filter_map(...)` pass of `ARN::from_str`. -/
def colonIndices (s : String) : List Nat :=
  s.data.enum.filterMap (fun ic => if ic.2 = ':' then some ic.1 else none)

/-- From `src/aws/arn.rs` `impl FromStr for ARN`: reject a missing `arn:`
lead, then reject fewer than five colons, otherwise keep the raw string and
its separator positions.  (`str::starts_with` is modelled at the character
level by `List.isPrefixOf`.) -/
def ARN.fromStr (value : String) : Except ARNParseError ARN :=
  if !("arn:".data.isPrefixOf value.data) then
    .error ARNParseError.PrefixMissing
  else
    let separators := colonIndices value
    if separators.length < 5 then
      .error ARNParseError.InvalidFormat
    else
      .ok { value := value, separators := separators }

/-- From `src/aws/arn.rs` `ARN::raw`. -/
def ARN.raw (a : ARN) : String := a.value

/-- From `src/iam.rs` `ActionParseError`. -/
inductive ActionParseError where
  | InvalidFormat
deriving DecidableEq, Repr

/-- From `src/iam.rs` `Action`: the raw `service:action` string plus the
position of its first colon. -/
structure Action where
  value : String
  separator : Nat
deriving DecidableEq, Repr

/-- From `src/iam.rs` `impl TryFrom<&str> for Action`: the separator is the
position of the first colon; no colon is an `InvalidFormat` error. -/
def Action.tryFrom (value : String) : Except ActionParseError Action :=
  match value.data.findIdx? (fun c => c = ':') with
  | none => .error ActionParseError.InvalidFormat
  | some i => .ok { value := value, separator := i }

/-- From `src/iam.rs` `Action::service`: the slice before the separator. -/
def Action.service (a : Action) : String :=
  ⟨a.value.data.take a.separator⟩

/-- From `src/iam.rs` `Action::action`: the slice after the separator. -/
def Action.act (a : Action) : String :=
  ⟨a.value.data.drop (a.separator + 1)⟩

/-- The `Principal` enum of `iam.rs` as used by `statement.rs` and
`main.rs` (`Principal::AWS(arn)`, `::Federated`, `::Service`,
`::CanonicalUser`).  The copy of `iam.rs` under `src/` is an older
revision holding a `Principal` struct; the enum shape is reconstructed from
its uses in `statement.rs`/`main.rs` and the data model of the spec. -/
inductive Principal where
  | AWS (arn : ARN)
  | Federated (s : String)
  | Service (s : String)
  | CanonicalUser (s : String)
deriving DecidableEq, Repr

/-- From `src/policy/constraint.rs` `ActionConstraint`. -/
inductive ActionConstraint where
  | Any
  | Pattern (a : Action)
deriving DecidableEq, Repr

/-- From `src/policy/constraint.rs` `ActionConstraint::matches`: `Any`
matches everything; a pattern star-matches the service and action halves
separately. -/
def ActionConstraint.matches : ActionConstraint → Action → Bool
  | .Any, _ => true
  | .Pattern pattern, action =>
    pattern_matches pattern.service action.service
      && pattern_matches pattern.act action.act

/-- From `src/policy/constraint.rs` `ResourceConstraint`. -/
inductive ResourceConstraint where
  | Any
  | Pattern (a : ARN)
deriving DecidableEq, Repr

/-- From `src/policy/constraint.rs` `ResourceConstraint::matches`: `Any`
matches everything; a pattern star-matches the raw ARN string. -/
def ResourceConstraint.matches : ResourceConstraint → ARN → Bool
  | .Any, _ => true
  | .Pattern pattern, resource => pattern_matches pattern.raw resource.raw

/-- From `src/policy/constraint.rs` `PrincipalConstraint`. -/
inductive PrincipalConstraint where
  | Any
  | AWSAny
  | Pattern (p : Principal)
deriving DecidableEq, Repr

/-- Modelled from the spec: `PrincipalConstraint::matches` is absent from
`src/` (only its caller in `statement.rs` is present).  Spec 4.8: true for
`Any`; true for `AWSAny` iff the principal is `AWS(_)`; otherwise
same-variant glob matching (`AWS` on the raw ARN, the other three on their
string payload), and cross-variant never matches. -/
def PrincipalConstraint.matches : PrincipalConstraint → Principal → Bool
  | .Any, _ => true
  | .AWSAny, .AWS _ => true
  | .AWSAny, _ => false
  | .Pattern (.AWS pat), .AWS arn => glob_matches pat.raw arn.raw
  | .Pattern (.Federated pat), .Federated s => glob_matches pat s
  | .Pattern (.Service pat), .Service s => glob_matches pat s
  | .Pattern (.CanonicalUser pat), .CanonicalUser s => glob_matches pat s
  | .Pattern _, _ => false

/-- From `src/policy/condition.rs` `ConditionError`. -/
inductive ConditionError where
  | TypeMismatch
  | TooManyValues
  | NotImplemented
deriving DecidableEq, Repr

/-- Model of `anyhow::Error` as it is used in this crate: either a wrapped
`ConditionError` or an `anyhow!("...")` message. -/
inductive EvalError where
  | condErr (e : ConditionError)
  | msg (s : String)
deriving DecidableEq, Repr

/-- Model of `f64::from_str` restricted to plain decimal literals: an
optional sign, digits, an optional fractional part, returned as an exact
pair (numerator, number of fractional digits).  Exponent, `inf` and `NaN`
forms are not modelled (they are rejected, where Rust would accept the
first two and fail on `NaN` at `partial_cmp` instead); no condition claim
exercises those forms. -/
def parseDecimal (s : String) : Option (Int × Nat) :=
  let signRest : Int × List Char :=
    match s.data with
    | '-' :: cs => (-1, cs)
    | '+' :: cs => (1, cs)
    | cs => (1, cs)
  let sign := signRest.1
  let rest := signRest.2
  let intPart := rest.takeWhile Char.isDigit
  let rest2 := rest.drop intPart.length
  let digitsToNat : List Char → Nat :=
    fun ds => ds.foldl (fun n c => n * 10 + (c.toNat - '0'.toNat)) 0
  match rest2 with
  | [] => if intPart.isEmpty then none else some (sign * digitsToNat intPart, 0)
  | '.' :: frac =>
    if frac.all Char.isDigit && !(intPart.isEmpty && frac.isEmpty) then
      some (sign * digitsToNat (intPart ++ frac), frac.length)
    else none
  | _ => none

/-- From `src/policy/condition.rs` `cmp_numbers`: parse both sides as
floating-point numbers (modelled by exact decimals) and compare; a parse
failure is a `TypeMismatch`. -/
def cmp_numbers (lhs rhs : String) : Except EvalError Ordering :=
  match parseDecimal lhs with
  | none => .error (.condErr .TypeMismatch)
  | some l =>
    match parseDecimal rhs with
    | none => .error (.condErr .TypeMismatch)
    | some r => .ok (compare (l.1 * (10 : Int) ^ r.2) (r.1 * (10 : Int) ^ l.2))

/-- Model of `chrono::DateTime::parse_from_rfc3339` reduced to the ordering
key it yields: nanoseconds relative to the civil epoch.  The accepted shape
is `YYYY-MM-DDThh:mm:ss[.frac](Z|+hh:mm|-hh:mm)` with calendar-valid
fields; a timezone-less string fails, matching the source's tests.  Civil
day arithmetic follows the standard days-from-civil computation. -/
def parseRFC3339 (s : String) : Option Int :=
  let cs := s.data
  let digit2 : List Char → Option (Nat × List Char) := fun l =>
    match l with
    | a :: b :: rest =>
      if a.isDigit && b.isDigit then
        some ((a.toNat - '0'.toNat) * 10 + (b.toNat - '0'.toNat), rest)
      else none
    | _ => none
  match cs with
  | y1 :: y2 :: y3 :: y4 :: '-' :: rest =>
    if !(y1.isDigit && y2.isDigit && y3.isDigit && y4.isDigit) then none else
    let year : Int := ((y1.toNat - '0'.toNat) * 1000 + (y2.toNat - '0'.toNat) * 100
      + (y3.toNat - '0'.toNat) * 10 + (y4.toNat - '0'.toNat) : Nat)
    match digit2 rest with
    | none => none
    | some (month, rest) =>
      match rest with
      | '-' :: rest =>
        match digit2 rest with
        | none => none
        | some (day, rest) =>
          match rest with
          | t :: rest =>
            if !(t = 'T' || t = 't' || t = ' ') then none else
            match digit2 rest with
            | none => none
            | some (hour, rest) =>
              match rest with
              | ':' :: rest =>
                match digit2 rest with
                | none => none
                | some (minute, rest) =>
                  match rest with
                  | ':' :: rest =>
                    match digit2 rest with
                    | none => none
                    | some (second, rest) =>
                      let fracRest : Nat × List Char :=
                        match rest with
                        | '.' :: more =>
                          let fd := more.takeWhile Char.isDigit
                          if fd.isEmpty then (0, rest)
                          else
                            let nine := (fd.take 9) ++ List.replicate (9 - fd.length) '0'
                            (nine.foldl (fun n c => n * 10 + (c.toNat - '0'.toNat)) 0,
                              more.drop fd.length)
                        | _ => (0, rest)
                      let nanos := fracRest.1
                      let offsetOf : List Char → Option Int := fun l =>
                        match l with
                        | ['Z'] => some 0
                        | ['z'] => some 0
                        | sgn :: rest =>
                          if !(sgn = '+' || sgn = '-') then none else
                          match digit2 rest with
                          | none => none
                          | some (oh, rest) =>
                            match rest with
                            | ':' :: rest =>
                              match digit2 rest with
                              | some (om, []) =>
                                if oh ≤ 23 && om ≤ 59 then
                                  some ((if sgn = '-' then -1 else 1) * (oh * 3600 + om * 60 : Nat))
                                else none
                              | _ => none
                            | _ => none
                        | _ => none
                      match offsetOf fracRest.2 with
                      | none => none
                      | some offset =>
                        let leap := (year % 4 = 0 && year % 100 ≠ 0) || year % 400 = 0
                        let monthDays :=
                          if month = 2 then (if leap then 29 else 28)
                          else if month = 4 || month = 6 || month = 9 || month = 11 then 30
                          else 31
                        if !(1 ≤ month && month ≤ 12 && 1 ≤ day && day ≤ monthDays
                            && hour ≤ 23 && minute ≤ 59 && second ≤ 60) then none
                        else
                          let yS : Int := if month ≤ 2 then year - 1 else year
                          let era : Int := (if 0 ≤ yS then yS else yS - 399).fdiv 400
                          let yoe : Int := yS - era * 400
                          let mS : Int := (month : Int)
                          let doy : Int := ((153 * (mS + (if mS > 2 then -3 else 9)) + 2).fdiv 5) + (day : Int) - 1
                          let doe : Int := yoe * 365 + yoe.fdiv 4 - yoe.fdiv 100 + doy
                          let days : Int := era * 146097 + doe - 719468
                          let secs : Int := days * 86400 + (hour * 3600 + minute * 60 + second : Nat) - offset
                          some (secs * 1000000000 + (nanos : Nat))
                  | _ => none
              | _ => none
          | _ => none
      | _ => none
  | _ => none

/-- From `src/policy/condition.rs` `cmp_dates`: parse both sides as
RFC-3339 timestamps and compare; a parse failure is a `TypeMismatch`. -/
def cmp_dates (lhs rhs : String) : Except EvalError Ordering :=
  match parseRFC3339 lhs with
  | none => .error (.condErr .TypeMismatch)
  | some l =>
    match parseRFC3339 rhs with
    | none => .error (.condErr .TypeMismatch)
    | some r => .ok (compare l r)

/-- From `src/policy/condition.rs` `bools_eq` (`bool::from_str` accepts
exactly `true` and `false`). -/
def bools_eq (lhs rhs : String) : Except EvalError Bool :=
  match lhs with
  | "true" | "false" =>
    match rhs with
    | "true" | "false" => .ok (lhs == rhs)
    | _ => .error (.condErr .TypeMismatch)
  | _ => .error (.condErr .TypeMismatch)

/-- Model of `base64::decode` as used by `base64s_eq`: the standard
alphabet, trailing `=` padding ignored, trailing partial groups of two or
three symbols accepted when their unused low bits are zero. -/
def base64Decode (s : String) : Option (List Nat) :=
  let symOf : Char → Option Nat := fun c =>
    if 'A' ≤ c && c ≤ 'Z' then some (c.toNat - 'A'.toNat)
    else if 'a' ≤ c && c ≤ 'z' then some (c.toNat - 'a'.toNat + 26)
    else if '0' ≤ c && c ≤ '9' then some (c.toNat - '0'.toNat + 52)
    else if c = '+' then some 62
    else if c = '/' then some 63
    else none
  let body := (s.data.reverse.dropWhile (fun c => c = '=')).reverse
  match body.mapM symOf with
  | none => none
  | some syms =>
    let rec groups : List Nat → Option (List Nat)
      | [] => some []
      | [_] => none
      | [a, b] => if b % 16 = 0 then some [a * 4 + b / 16] else none
      | [a, b, c] =>
        if c % 4 = 0 then some [a * 4 + b / 16, (b % 16) * 16 + c / 4] else none
      | a :: b :: c :: d :: rest =>
        match groups rest with
        | none => none
        | some bs => some ([a * 4 + b / 16, (b % 16) * 16 + c / 4, (c % 4) * 64 + d] ++ bs)
    groups syms

/-- From `src/policy/condition.rs` `base64s_eq`: decode both sides and
compare the bytes; a decode failure is a `TypeMismatch`. -/
def base64s_eq (lhs rhs : String) : Except EvalError Bool :=
  match base64Decode lhs with
  | none => .error (.condErr .TypeMismatch)
  | some l =>
    match base64Decode rhs with
    | none => .error (.condErr .TypeMismatch)
    | some r => .ok (l == r)

/-- Model of `IpAddr::from_str` restricted to IPv4 dotted quads (four parts
of 0..=255).  IPv6 parsing is a library primitive that is not modelled;
IPv6 literals are rejected here.  No claim exercises IPv6 inputs. -/
def parseIPv4 (s : String) : Option Nat :=
  let parts := s.data.splitOn '.'
  match parts.mapM (fun p =>
      if p.isEmpty || p.length > 3 || !p.all Char.isDigit then none
      else
        let n := p.foldl (fun n c => n * 10 + (c.toNat - '0'.toNat)) 0
        if n ≤ 255 then some n else none) with
  | some [a, b, c, d] => some (((a * 256 + b) * 256 + c) * 256 + d)
  | _ => none

/-- Model of `IpNetwork::from_str` for IPv4 CIDR forms `a.b.c.d/p` with
`p ≤ 32`, or a bare address (prefix 32). -/
def parseIPv4Network (s : String) : Option (Nat × Nat) :=
  match s.data.splitOn '/' with
  | [addr] => (parseIPv4 ⟨addr⟩).map (fun ip => (ip, 32))
  | [addr, pfx] =>
    if pfx.isEmpty || pfx.length > 2 || !pfx.all Char.isDigit then none
    else
      let p := pfx.foldl (fun n c => n * 10 + (c.toNat - '0'.toNat)) 0
      if p ≤ 32 then (parseIPv4 ⟨addr⟩).map (fun ip => (ip, p)) else none
  | _ => none

/-- From `src/policy/condition.rs` `ip_in_cidr`: the left side must be a
bare IP, the right side a CIDR network; the result is containment. -/
def ip_in_cidr (lhs rhs : String) : Except EvalError Bool :=
  match parseIPv4 lhs with
  | none => .error (.condErr .TypeMismatch)
  | some ip =>
    match parseIPv4Network rhs with
    | none => .error (.condErr .TypeMismatch)
    | some net =>
      .ok (ip / 2 ^ (32 - net.2) == net.1 / 2 ^ (32 - net.2))

/-- Model of Rust `str::to_lowercase` by per-character lowering (full
Unicode case mapping is a library primitive; ASCII suffices for the spec's
operators). -/
def toLowercase (s : String) : String := ⟨s.data.map Char.toLower⟩

/-- From `src/policy/condition.rs` `ConditionOperator` (the evaluator wired
to `Statement`; `Null` is a member of this enum). -/
inductive ConditionOperator where
  | StringEquals
  | StringNotEquals
  | StringEqualsIgnoreCase
  | StringNotEqualsIgnoreCase
  | StringLike
  | StringNotLike
  | NumericEquals
  | NumericNotEquals
  | NumericLessThan
  | NumericLessThanEquals
  | NumericGreaterThan
  | NumericGreaterThanEquals
  | DateEquals
  | DateNotEquals
  | DateLessThan
  | DateLessThanEquals
  | DateGreaterThan
  | DateGreaterThanEquals
  | Bool
  | BinaryEquals
  | IpAddress
  | NotIpAddress
  | ArnEquals
  | ArnLike
  | ArnNotEquals
  | ArnNotLike
  | Null
deriving DecidableEq, Repr

/-- Shorthand for the `anyhow::Result<bool>` type of the matchers. -/
abbrev ResultBool := Except EvalError Bool

/-- From `src/policy/condition.rs` `ConditionOperator::matches`.  The four
`Arn...` operators and `Null` return `NotImplemented`. -/
def ConditionOperator.matches (op : ConditionOperator) (value target : String) :
    ResultBool :=
  match op with
  | .StringEquals => .ok (target == value)
  | .StringNotEquals => .ok (target != value)
  | .StringEqualsIgnoreCase => .ok (toLowercase target == toLowercase value)
  | .StringNotEqualsIgnoreCase => .ok (toLowercase target != toLowercase value)
  | .StringLike => .ok (glob_matches target value)
  | .StringNotLike => .ok (!glob_matches target value)
  | .NumericEquals => (cmp_numbers value target).map (fun o => o == Ordering.eq)
  | .NumericNotEquals => (cmp_numbers value target).map (fun o => o != Ordering.eq)
  | .NumericLessThan => (cmp_numbers value target).map (fun o => o == Ordering.lt)
  | .NumericLessThanEquals => (cmp_numbers value target).map (fun o => o != Ordering.gt)
  | .NumericGreaterThan => (cmp_numbers value target).map (fun o => o == Ordering.gt)
  | .NumericGreaterThanEquals => (cmp_numbers value target).map (fun o => o != Ordering.lt)
  | .DateEquals => (cmp_dates value target).map (fun o => o == Ordering.eq)
  | .DateNotEquals => (cmp_dates value target).map (fun o => o != Ordering.eq)
  | .DateLessThan => (cmp_dates value target).map (fun o => o == Ordering.lt)
  | .DateLessThanEquals => (cmp_dates value target).map (fun o => o != Ordering.gt)
  | .DateGreaterThan => (cmp_dates value target).map (fun o => o == Ordering.gt)
  | .DateGreaterThanEquals => (cmp_dates value target).map (fun o => o != Ordering.lt)
  | .Bool => bools_eq value target
  | .BinaryEquals => base64s_eq value target
  | .IpAddress => ip_in_cidr value target
  | .NotIpAddress => (ip_in_cidr value target).map (fun b => !b)
  | .ArnEquals => .error (.condErr .NotImplemented)
  | .ArnLike => .error (.condErr .NotImplemented)
  | .ArnNotEquals => .error (.condErr .NotImplemented)
  | .ArnNotLike => .error (.condErr .NotImplemented)
  | .Null => .error (.condErr .NotImplemented)

/-- From the `json` crate as used here: the parsed JSON tree. -/
inductive JsonValue where
  | null
  | boolean (b : Bool)
  | num (n : Int)
  | str (s : String)
  | arr (xs : List JsonValue)
  | obj (fields : List (String × JsonValue))

/-- From the `json` crate: `json::Error::wrong_type`. -/
inductive JsonError where
  | wrongType (s : String)
deriving DecidableEq, Repr

/-- Indexing `value["key"]`: the member of an object, `null` otherwise. -/
def JsonValue.getField : JsonValue → String → JsonValue
  | .obj fields, key =>
    match fields.lookup key with
    | some v => v
    | none => .null
  | _, _ => .null

/-- `JsonValue::is_null`. -/
def JsonValue.isNull : JsonValue → Bool
  | .null => true
  | _ => false

/-- `JsonValue::is_string`. -/
def JsonValue.isString : JsonValue → Bool
  | .str _ => true
  | _ => false

/-- `JsonValue::is_object`. -/
def JsonValue.isObject : JsonValue → Bool
  | .obj _ => true
  | _ => false

/-- `JsonValue::is_array`. -/
def JsonValue.isArray : JsonValue → Bool
  | .arr _ => true
  | _ => false

/-- `JsonValue::as_str`. -/
def JsonValue.asStr : JsonValue → Option String
  | .str s => some s
  | _ => none

/-- `JsonValue::members`: the elements of an array, empty otherwise. -/
def JsonValue.members : JsonValue → List JsonValue
  | .arr xs => xs
  | _ => []

/-- `JsonValue::entries`: the fields of an object, empty otherwise. -/
def JsonValue.entries : JsonValue → List (String × JsonValue)
  | .obj fields => fields
  | _ => []

/-- From `src/policy/condition.rs` `impl TryFrom<&str> for
ConditionOperator`: exact token match, no stripping of any prefix or
suffix. -/
def ConditionOperator.tryFrom (value : String) : Except JsonError ConditionOperator :=
  match value with
  | "StringEquals" => .ok .StringEquals
  | "StringNotEquals" => .ok .StringNotEquals
  | "StringEqualsIgnoreCase" => .ok .StringEqualsIgnoreCase
  | "StringNotEqualsIgnoreCase" => .ok .StringNotEqualsIgnoreCase
  | "StringLike" => .ok .StringLike
  | "StringNotLike" => .ok .StringNotLike
  | "NumericEquals" => .ok .NumericEquals
  | "NumericNotEquals" => .ok .NumericNotEquals
  | "NumericLessThan" => .ok .NumericLessThan
  | "NumericLessThanEquals" => .ok .NumericLessThanEquals
  | "NumericGreaterThan" => .ok .NumericGreaterThan
  | "NumericGreaterThanEquals" => .ok .NumericGreaterThanEquals
  | "DateEquals" => .ok .DateEquals
  | "DateNotEquals" => .ok .DateNotEquals
  | "DateLessThan" => .ok .DateLessThan
  | "DateLessThanEquals" => .ok .DateLessThanEquals
  | "DateGreaterThan" => .ok .DateGreaterThan
  | "DateGreaterThanEquals" => .ok .DateGreaterThanEquals
  | "Bool" => .ok .Bool
  | "BinaryEquals" => .ok .BinaryEquals
  | "IpAddress" => .ok .IpAddress
  | "NotIpAddress" => .ok .NotIpAddress
  | "ArnEquals" => .ok .ArnEquals
  | "ArnLike" => .ok .ArnLike
  | "ArnNotEquals" => .ok .ArnNotEquals
  | "ArnNotLike" => .ok .ArnNotLike
  | "Null" => .ok .Null
  | _ => .error (.wrongType "unrecognized condition operator")

/-- From `src/policy/condition.rs` `ConditionValues =
HashMap<String, Vec<String>>`, modelled as an association list preserving
the JSON field order. -/
def ConditionValues := List (String × List String)

instance : DecidableEq ConditionValues :=
  inferInstanceAs (DecidableEq (List (String × List String)))

/-- From `src/policy/condition.rs` `ConditionSet`: the map from operator to
condition-value groups, modelled as an association list in iteration
order.  (Rust's `HashMap` has no specified iteration order; the list fixes
one.) -/
structure ConditionSet where
  conditions : List (ConditionOperator × ConditionValues)
deriving DecidableEq

/-- The `HashMap<String, Vec<String>>` a condition set is evaluated
against, modelled by its lookup function. -/
def ValueMap := String → Option (List String)

/-- The innermost fold of `ConditionSet::matches`: an OR over the targets,
applying the operator to the single context value, short-circuiting on the
first `true` or error. -/
def conditionTargetStep (op : ConditionOperator) (value : String)
    (result : ResultBool) (target : String) : ResultBool :=
  match result with
  | .ok false => op.matches value target
  | _ => result

/-- The per-`(key, targets)` step of `ConditionSet::matches` (the body of
the inner fold, written as an inline closure in the source).  A prior
`false` or error is kept.  For `Null` the first target is compared with
`"false"`/`"true"` depending on presence (Rust's `targets[0]` panics on an
empty target list; the model reads `""` there, and no claim exercises that
case).  For other operators an absent key is a `NotImplemented` error, a
present key must hold exactly one value or the result is `TooManyValues`,
and otherwise the target fold applies. -/
def conditionKeyStep (op : ConditionOperator) (value_map : ValueMap)
    (result : ResultBool) (kv : String × List String) : ResultBool :=
  match result with
  | .error _ | .ok false => result
  | .ok true =>
    match value_map kv.1 with
    | some values =>
      if op = ConditionOperator.Null then
        .ok (kv.2.headD "" == "false")
      else if values.length ≠ 1 then
        .error (.condErr .TooManyValues)
      else
        kv.2.foldl (conditionTargetStep op (values.headD "")) (.ok false)
    | none =>
      if op = ConditionOperator.Null then
        .ok (kv.2.headD "" == "true")
      else
        .error (.condErr .NotImplemented)

/-- The per-operator-group step of `ConditionSet::matches` (the body of the
outer fold, written as an inline closure in the source): a prior `false` or
error is kept, otherwise the group's entries are folded. -/
def conditionGroupStep (value_map : ValueMap) (result : ResultBool)
    (entry : ConditionOperator × ConditionValues) : ResultBool :=
  match result with
  | .error _ | .ok false => result
  | .ok true => entry.2.foldl (conditionKeyStep entry.1 value_map) (.ok true)

/-- From `src/policy/condition.rs` `ConditionSet::matches`: an AND-fold
over operator groups, inside it an AND-fold over `(key, targets)` entries,
both short-circuiting on the first `false` or error. -/
def ConditionSet.matches (cs : ConditionSet) (value_map : ValueMap) :
    Except EvalError Bool :=
  cs.conditions.foldl (conditionGroupStep value_map) (.ok true)

/-- From `src/policy/condition.rs` `ConditionSet::try_from_values`: each
condition key maps to either a single string (wrapped in a one-element
list) or the strings of an array; a non-string member is an error.  As in
the source, `members()` of a non-array, non-string value is empty. -/
def ConditionSet.try_from_values (values : JsonValue) : Except JsonError ConditionValues :=
  values.entries.mapM (fun (kv : String × JsonValue) =>
    match kv.2.asStr with
    | some s => Except.ok (kv.1, [s])
    | none =>
      (kv.2.members.mapM (fun (v : JsonValue) =>
        match v.asStr with
        | some s => Except.ok s
        | none => Except.error (JsonError.wrongType "expected condition values to be strings"))).map
        (fun vs => (kv.1, vs)))

/-- From `src/policy/condition.rs` `impl TryFrom<&json::JsonValue> for
ConditionSet`: every entry key must parse as an operator token, every entry
value as a condition-value group.  (The Rust code collects into a
`HashMap`; the model keeps the entry list.) -/
def ConditionSet.tryFrom (value : JsonValue) : Except JsonError ConditionSet :=
  (value.entries.mapM (fun (kv : String × JsonValue) => do
    let operator ← ConditionOperator.tryFrom kv.1
    let values ← ConditionSet.try_from_values kv.2
    pure (operator, values))).map (fun conditions => { conditions := conditions })

/-- From `src/policy/context.rs` `Context`: global key values plus
per-resource overlays, each `HashMap` modelled by its lookup function. -/
structure Context where
  global : ValueMap
  resources : ARN → Option ValueMap

/-- From `src/policy/context.rs` `Context::globals`. -/
def Context.globals (c : Context) : ValueMap := c.global

/-- From `src/policy/context.rs` `Context::resource`. -/
def Context.resource (c : Context) (arn : ARN) : Option ValueMap := c.resources arn

/-- From `src/policy/statement.rs` `Effect`. -/
inductive Effect where
  | Allow
  | Deny
deriving DecidableEq, Repr

/-- From `src/policy/statement.rs` `CheckResult`. -/
inductive CheckResult where
  | Allow
  | Deny
  | Unspecified
deriving DecidableEq, Repr

/-- From `src/policy/statement.rs` `PrincipalClause`. -/
inductive PrincipalClause where
  | NoneClause
  | Principal (cs : List PrincipalConstraint)
  | NotPrincipal (cs : List PrincipalConstraint)
deriving DecidableEq, Repr

/-- From `src/policy/statement.rs` `ActionClause`. -/
inductive ActionClause where
  | Action (cs : List ActionConstraint)
  | NotAction (cs : List ActionConstraint)
deriving DecidableEq, Repr

/-- From `src/policy/statement.rs` `ResourceClause`. -/
inductive ResourceClause where
  | Resource (cs : List ResourceConstraint)
  | NotResource (cs : List ResourceConstraint)
deriving DecidableEq, Repr

/-- From `src/policy/statement.rs` `Statement`. -/
structure Statement where
  sid : Option String
  effect : Effect
  principals : PrincipalClause
  actions : ActionClause
  resources : ResourceClause
  conditions : Option ConditionSet

/-- From `src/policy/statement.rs` `Statement::matches_conditions`: with no
condition set the statement matches; otherwise the effective value map is
the globals extended (and overridden) by the per-resource overlay, and the
condition set is evaluated against it. -/
def Statement.matches_conditions (s : Statement) (resource : ARN) (context : Context) :
    ResultBool :=
  match s.conditions with
  | none => .ok true
  | some conditions =>
    let key_values : ValueMap := fun k =>
      match context.resource resource with
      | some rsrc_values =>
        match rsrc_values k with
        | some vs => some vs
        | none => context.globals k
      | none => context.globals k
    conditions.matches key_values

/-- From `src/policy/statement.rs` `Statement::check_action`: gate on the
action clause, then the resource clause (each failure yields
`Unspecified`), then the conditions (false yields `Unspecified`, an error
propagates), and finally convert the effect. -/
def Statement.check_action (s : Statement) (action : Action) (resource : ARN)
    (context : Context) : Except EvalError CheckResult :=
  let matches_action :=
    match s.actions with
    | .Action actions => actions.any (fun c => c.matches action)
    | .NotAction actions => !actions.any (fun c => c.matches action)
  if !matches_action then .ok .Unspecified
  else
    let matches_resource :=
      match s.resources with
      | .Resource resources => resources.any (fun c => c.matches resource)
      | .NotResource resources => !resources.any (fun c => c.matches resource)
    if !matches_resource then .ok .Unspecified
    else
      match s.matches_conditions resource context with
      | .error e => .error e
      | .ok false => .ok .Unspecified
      | .ok true =>
        .ok (match s.effect with
          | .Allow => .Allow
          | .Deny => .Deny)

/-- From `src/policy/statement.rs` `Statement::check`: the principal gate
(an absent clause passes; `Principal` requires a constraint match;
`NotPrincipal` forbids one), then `check_action`. -/
def Statement.check (s : Statement) (principal : Principal) (action : Action)
    (resource : ARN) (context : Context) : Except EvalError CheckResult :=
  let matches_principals :=
    match s.principals with
    | .NoneClause => true
    | .Principal principals => principals.any (fun c => c.matches principal)
    | .NotPrincipal principals => !principals.any (fun c => c.matches principal)
  if matches_principals then s.check_action action resource context
  else .ok .Unspecified

/-- From `src/policy/statement.rs` `Statement::parse_effect`. -/
def Statement.parse_effect (value : JsonValue) : Except JsonError Effect :=
  match value.asStr with
  | some "Allow" => .ok .Allow
  | some "Deny" => .ok .Deny
  | some _ => .error (.wrongType "expected Effect to be Allow or Deny")
  | none => .error (.wrongType "expected Effect to be a string")

/-- From `src/policy/constraint.rs` `impl TryFrom<&json::JsonValue> for
ActionConstraint`: a string is required; `*` is `Any`, anything else must
parse as an action pattern. -/
def ActionConstraint.tryFrom (value : JsonValue) : Except JsonError ActionConstraint :=
  match value.asStr with
  | none => .error (.wrongType "expected Action to be a string")
  | some v =>
    if v == "*" then .ok .Any
    else
      match Action.tryFrom v with
      | .ok a => .ok (.Pattern a)
      | .error _ => .error (.wrongType "expected Action to be an action pattern")

/-- From `src/policy/constraint.rs` `impl TryFrom<&json::JsonValue> for
ResourceConstraint`: a string is required; `*` is `Any`, anything else must
parse as an ARN pattern. -/
def ResourceConstraint.tryFrom (value : JsonValue) : Except JsonError ResourceConstraint :=
  match value.asStr with
  | none => .error (.wrongType "expected Resource to be a string")
  | some v =>
    if v == "*" then .ok .Any
    else
      match ARN.fromStr v with
      | .ok a => .ok (.Pattern a)
      | .error _ => .error (.wrongType "expected Resource to be an ARN pattern")

/-- From `src/policy/statement.rs` `Statement::parse_actions`: a single
string or the members of an array (the members of a non-array are
empty). -/
def Statement.parse_actions (value : JsonValue) : Except JsonError (List ActionConstraint) :=
  if value.isString then
    (ActionConstraint.tryFrom value).map (fun a => [a])
  else
    value.members.mapM ActionConstraint.tryFrom

/-- From `src/policy/statement.rs` `Statement::parse_aws_principal`: `*` is
`AWSAny`; a bare-digit account (the `^\d+$` regex, modelled as a nonempty
all-digit string) is rewritten to `arn:aws:iam::<digits>:root` and the
result must parse as an ARN. -/
def Statement.parse_aws_principal (value : JsonValue) : Except JsonError PrincipalConstraint :=
  match value.asStr with
  | none => .error (.wrongType "expected AWS principal to be a string")
  | some v =>
    if v == "*" then .ok .AWSAny
    else
      let account :=
        if v.length > 0 && v.data.all Char.isDigit then
          "arn:aws:iam::" ++ v ++ ":root"
        else v
      match ARN.fromStr account with
      | .error _ => .error (.wrongType "expected AWS principal to be an ARN or star")
      | .ok a => .ok (.Pattern (.AWS a))

/-- From `src/policy/statement.rs` `Statement::parse_aws_principals`. -/
def Statement.parse_aws_principals (value : JsonValue) :
    Except JsonError (List PrincipalConstraint) :=
  if value.isString then
    (Statement.parse_aws_principal value).map (fun c => [c])
  else
    value.members.mapM Statement.parse_aws_principal

/-- From `src/policy/statement.rs` `Statement::parse_federated_principal`. -/
def Statement.parse_federated_principal (value : JsonValue) :
    Except JsonError PrincipalConstraint :=
  match value.asStr with
  | none => .error (.wrongType "expected Federated principal to be a string")
  | some v => .ok (.Pattern (.Federated v))

/-- From `src/policy/statement.rs` `Statement::parse_federated_principals`. -/
def Statement.parse_federated_principals (value : JsonValue) :
    Except JsonError (List PrincipalConstraint) :=
  if value.isString then
    (Statement.parse_federated_principal value).map (fun c => [c])
  else
    value.members.mapM Statement.parse_federated_principal

/-- From `src/policy/statement.rs` `Statement::parse_service_principal`. -/
def Statement.parse_service_principal (value : JsonValue) :
    Except JsonError PrincipalConstraint :=
  match value.asStr with
  | none => .error (.wrongType "expected Federated principal to be a string")
  | some v => .ok (.Pattern (.Service v))

/-- From `src/policy/statement.rs` `Statement::parse_service_principals`. -/
def Statement.parse_service_principals (value : JsonValue) :
    Except JsonError (List PrincipalConstraint) :=
  if value.isString then
    (Statement.parse_service_principal value).map (fun c => [c])
  else
    value.members.mapM Statement.parse_service_principal

/-- From `src/policy/statement.rs` `Statement::parse_canonicaluser_principal`. -/
def Statement.parse_canonicaluser_principal (value : JsonValue) :
    Except JsonError PrincipalConstraint :=
  match value.asStr with
  | none => .error (.wrongType "expected Federated principal to be a string")
  | some v => .ok (.Pattern (.CanonicalUser v))

/-- From `src/policy/statement.rs` `Statement::parse_canonicaluser_principals`. -/
def Statement.parse_canonicaluser_principals (value : JsonValue) :
    Except JsonError (List PrincipalConstraint) :=
  if value.isString then
    (Statement.parse_canonicaluser_principal value).map (fun c => [c])
  else
    value.members.mapM Statement.parse_canonicaluser_principal

/-- From `src/policy/statement.rs` `Statement::parse_principals`: `null`
yields no constraints; the string `*` yields `Any` (any other string is an
error); otherwise an object whose keys select the per-kind parsers, the
per-key results concatenated by the source's fold (a later error replaces
an earlier one; an `Ok` after an error leaves the error in place). -/
def Statement.parse_principals (value : JsonValue) :
    Except JsonError (List PrincipalConstraint) :=
  if value.isNull then .ok []
  else
    match value.asStr with
    | some s =>
      if s == "*" then .ok [PrincipalConstraint.Any]
      else .error (.wrongType "expected Principal to be non-string value except star")
    | none =>
      if !value.isObject then
        .error (.wrongType "expected Principal to be an object when it is not star")
      else
        (value.entries.map (fun (kv : String × JsonValue) =>
          match kv.1 with
          | "AWS" => Statement.parse_aws_principals kv.2
          | "Federated" => Statement.parse_federated_principals kv.2
          | "Service" => Statement.parse_service_principals kv.2
          | "CanonicalUser" => Statement.parse_canonicaluser_principals kv.2
          | _ => .error (.wrongType
              "expected Principal to be star, AWS, Federated, Service, or CanonicalUser"))).foldl
          (fun acc value =>
            match value with
            | .ok other => acc.map (fun cs => cs ++ other)
            | .error _ => value) (.ok [])

/-- From `src/policy/statement.rs` `Statement::parse_resources`. -/
def Statement.parse_resources (value : JsonValue) :
    Except JsonError (List ResourceConstraint) :=
  if value.isString then
    (ResourceConstraint.tryFrom value).map (fun r => [r])
  else
    value.members.mapM ResourceConstraint.tryFrom

/-- From `src/policy/statement.rs` `Statement::parse_conditions`. -/
def Statement.parse_conditions (value : JsonValue) :
    Except JsonError (Option ConditionSet) :=
  if value.isNull then .ok none
  else if value.isObject then (ConditionSet.tryFrom value).map some
  else .error (.wrongType "expected Condition to be an object")

/-- From `src/policy/statement.rs` `impl TryFrom<&json::JsonValue> for
Statement`.  Note the `(true, false)` arm of the action match: as in the
source, it passes the `Action` member (which is `null` there) to
`parse_actions`, not the `NotAction` member. -/
def Statement.tryFrom (value : JsonValue) : Except JsonError Statement := do
  let sid := value.getField "Sid"
  let sid ←
    match sid.asStr with
    | some s => pure (some s)
    | none =>
      if sid.isNull then pure none
      else .error (.wrongType "expected Sid to be a string")
  let effect ← Statement.parse_effect (value.getField "Effect")
  let action := value.getField "Action"
  let not_action := value.getField "NotAction"
  let actions ←
    match action.isNull, not_action.isNull with
    | true, true => .error (.wrongType "missing Action or NotAction")
    | false, true => (Statement.parse_actions action).map ActionClause.Action
    | true, false => (Statement.parse_actions action).map ActionClause.NotAction
    | false, false =>
      .error (.wrongType "cannot have both Action and NotAction in same statement")
  let principal := value.getField "Principal"
  let not_principal := value.getField "NotPrincipal"
  let principals ←
    match principal.isNull, not_principal.isNull with
    | true, true => pure PrincipalClause.NoneClause
    | false, true => (Statement.parse_principals principal).map PrincipalClause.Principal
    | true, false => (Statement.parse_principals not_principal).map PrincipalClause.NotPrincipal
    | false, false =>
      .error (.wrongType "cannot have both Principal and NotPrincipal in same statement")
  let resource := value.getField "Resource"
  let not_resource := value.getField "NotResource"
  let resources ←
    match resource.isNull, not_resource.isNull with
    | true, true => .error (.wrongType "missing Resource or NotResource")
    | false, true => (Statement.parse_resources resource).map ResourceClause.Resource
    | true, false => (Statement.parse_resources not_resource).map ResourceClause.NotResource
    | false, false =>
      .error (.wrongType "cannot have both Resource and NotResource in same statement")
  let conditions ← Statement.parse_conditions (value.getField "Condition")
  pure { sid := sid, effect := effect, principals := principals,
         actions := actions, resources := resources, conditions := conditions }

/-- From `src/policy.rs` `Policy`. -/
structure Policy where
  version : Option String
  id : Option String
  statements : List Statement

/-- The fold step shared verbatim by `Policy::check_action` and
`Policy::check` (the two folds of `src/policy.rs` differ only in the
statement-level call): keep a `Deny` or an error; from `Unspecified`
evaluate the statement; from `Allow` re-evaluate only statements whose
effect is `Deny`, a `Deny` outcome overriding, any other outcome leaving
the `Allow`, an error propagating. -/
def policyStep (eval : Statement → Except EvalError CheckResult)
    (result : Except EvalError CheckResult) (stmt : Statement) :
    Except EvalError CheckResult :=
  match result with
  | .ok .Deny => result
  | .ok .Unspecified => eval stmt
  | .ok .Allow =>
    if stmt.effect = Effect.Deny then
      match eval stmt with
      | .ok .Deny => .ok .Deny
      | .ok _ => .ok .Allow
      | .error err => .error err
    else result
  | .error _ => result

/-- From `src/policy.rs` `Policy::check_action`: fold the statements with
`policyStep`, starting from `Unspecified`. -/
def Policy.check_action (p : Policy) (action : Action) (resource : ARN)
    (context : Context) : Except EvalError CheckResult :=
  p.statements.foldl (policyStep (fun stmt => stmt.check_action action resource context))
    (.ok .Unspecified)

/-- From `src/policy.rs` `Policy::check`: the same fold over
`Statement::check`. -/
def Policy.check (p : Policy) (principal : Principal) (action : Action)
    (resource : ARN) (context : Context) : Except EvalError CheckResult :=
  p.statements.foldl (policyStep (fun stmt => stmt.check principal action resource context))
    (.ok .Unspecified)

/-- Modelled from the spec: `arn_eq`, the `ArnEquals` comparator imported
by `src/policy/condition/operator.rs` from its parent module, is missing
from `src/`.  Spec 4.3: ARN equality is over the raw form. -/
def arn_eq (value target : String) : ResultBool :=
  .ok (value == target)

/-- Modelled from the spec: `arn_like`, the `ArnLike` comparator imported
by `src/policy/condition/operator.rs` from its parent module, is missing
from `src/`.  Spec 4.3: return true for a literal `*`, otherwise parse the
pattern side as an ARN pattern and defer to resource-constraint matching. -/
def arn_like (value target : String) : ResultBool :=
  if target == "*" then .ok true
  else
    match ARN.fromStr target with
    | .error _ => .error (.condErr .TypeMismatch)
    | .ok pat =>
      match ARN.fromStr value with
      | .error _ => .error (.condErr .TypeMismatch)
      | .ok arn => .ok (ResourceConstraint.matches (.Pattern pat) arn)

/-- From `src/policy/condition/operator.rs` `Operator` (the quantifier
model's operator enum; `Null` is deliberately absent). -/
inductive Operator where
  | StringEquals
  | StringNotEquals
  | StringEqualsIgnoreCase
  | StringNotEqualsIgnoreCase
  | StringLike
  | StringNotLike
  | NumericEquals
  | NumericNotEquals
  | NumericLessThan
  | NumericLessThanEquals
  | NumericGreaterThan
  | NumericGreaterThanEquals
  | DateEquals
  | DateNotEquals
  | DateLessThan
  | DateLessThanEquals
  | DateGreaterThan
  | DateGreaterThanEquals
  | Bool
  | BinaryEquals
  | IpAddress
  | NotIpAddress
  | ArnEquals
  | ArnLike
  | ArnNotEquals
  | ArnNotLike
deriving DecidableEq, Repr

/-- From `src/policy/condition/operator.rs` `Operator::matches`. -/
def Operator.matches (op : Operator) (value target : String) : ResultBool :=
  match op with
  | .StringEquals => .ok (target == value)
  | .StringNotEquals => .ok (target != value)
  | .StringEqualsIgnoreCase => .ok (toLowercase target == toLowercase value)
  | .StringNotEqualsIgnoreCase => .ok (toLowercase target != toLowercase value)
  | .StringLike => .ok (glob_matches target value)
  | .StringNotLike => .ok (!glob_matches target value)
  | .NumericEquals => (cmp_numbers value target).map (fun o => o == Ordering.eq)
  | .NumericNotEquals => (cmp_numbers value target).map (fun o => o != Ordering.eq)
  | .NumericLessThan => (cmp_numbers value target).map (fun o => o == Ordering.lt)
  | .NumericLessThanEquals => (cmp_numbers value target).map (fun o => o != Ordering.gt)
  | .NumericGreaterThan => (cmp_numbers value target).map (fun o => o == Ordering.gt)
  | .NumericGreaterThanEquals => (cmp_numbers value target).map (fun o => o != Ordering.lt)
  | .DateEquals => (cmp_dates value target).map (fun o => o == Ordering.eq)
  | .DateNotEquals => (cmp_dates value target).map (fun o => o != Ordering.eq)
  | .DateLessThan => (cmp_dates value target).map (fun o => o == Ordering.lt)
  | .DateLessThanEquals => (cmp_dates value target).map (fun o => o != Ordering.gt)
  | .DateGreaterThan => (cmp_dates value target).map (fun o => o == Ordering.gt)
  | .DateGreaterThanEquals => (cmp_dates value target).map (fun o => o != Ordering.lt)
  | .Bool => bools_eq value target
  | .BinaryEquals => base64s_eq value target
  | .IpAddress => ip_in_cidr value target
  | .NotIpAddress => (ip_in_cidr value target).map (fun b => !b)
  | .ArnEquals => arn_eq value target
  | .ArnLike => arn_like value target
  | .ArnNotEquals => (arn_eq value target).map (fun b => !b)
  | .ArnNotLike => (arn_like value target).map (fun b => !b)

/-- From `src/policy/condition/quantifier.rs` `Quantifier`. -/
inductive Quantifier where
  | ForAllValues (op : Operator)
  | ForAnyValue (op : Operator)
  | Null
deriving DecidableEq, Repr

/-- From `src/policy/condition/quantifier.rs` `matches_all`: trivially true
on an absent key, otherwise an AND over the values of an OR over the
targets, short-circuiting and propagating operator errors. -/
def matches_all (op : Operator) (values : Option (List String))
    (targets : List String) : ResultBool :=
  match values with
  | none => .ok true
  | some vs =>
    vs.foldlM (fun result value =>
      if !result then pure result
      else targets.foldlM (fun found target =>
        if found then pure found else op.matches value target) false) true

/-- From `src/policy/condition/quantifier.rs` `matches_any`: false on an
absent key, otherwise an OR over the values of an OR over the targets,
short-circuiting and propagating operator errors. -/
def matches_any (op : Operator) (values : Option (List String))
    (targets : List String) : ResultBool :=
  match values with
  | none => .ok false
  | some vs =>
    vs.foldlM (fun result value =>
      if result then pure result
      else targets.foldlM (fun found target =>
        if found then pure found else op.matches value target) false) false

/-- From `src/policy/condition/quantifier.rs` `matches_null`: with exactly
one target, true iff the absence of the key equals the target being
`"true"`; any other target count is the `anyhow!` cardinality error. -/
def matches_null (values : Option (List String)) (targets : List String) : ResultBool :=
  if targets.length = 1 then
    .ok (values.isNone == (targets.headD "" == "true"))
  else
    .error (.msg "Null condition must take exactly one argument")

/-- From `src/policy/condition/quantifier.rs` `Quantifier::matches`. -/
def Quantifier.matches (q : Quantifier) (values : Option (List String))
    (targets : List String) : ResultBool :=
  match q with
  | .ForAllValues op => matches_all op values targets
  | .ForAnyValue op => matches_any op values targets
  | .Null => matches_null values targets

/-- The operator pairs of `src/policy/condition/operator.rs` related by a
`Not...` sibling, as enumerated by the claim. -/
def notSiblingPairs : List (Operator × Operator) :=
  [(.StringEquals, .StringNotEquals),
   (.StringEqualsIgnoreCase, .StringNotEqualsIgnoreCase),
   (.StringLike, .StringNotLike),
   (.NumericEquals, .NumericNotEquals),
   (.DateEquals, .DateNotEquals),
   (.IpAddress, .NotIpAddress),
   (.ArnEquals, .ArnNotEquals),
   (.ArnLike, .ArnNotLike)]

/-- The glob language the specification ascribes to
`constraint.rs::pattern_matches` once `?` is removed: a literal character
matches itself, `*` matches any possibly empty sequence of non-newline
characters (the regex `.*` that the source compiles `*` to).  This
declarative relation is the specification-side counterpart against which
the executable `starMatchList` is proved. -/
inductive StarGlob : List Char → List Char → Prop where
  | nil : StarGlob [] []
  | star (ps ts1 ts2 : List Char) : (∀ c ∈ ts1, c ≠ '\n') → StarGlob ps ts2 →
      StarGlob ('*' :: ps) (ts1 ++ ts2)
  | lit (c : Char) (ps ts : List Char) : c ≠ '*' → StarGlob ps ts →
      StarGlob (c :: ps) (c :: ts)

deriving instance DecidableEq for Except

/-! Theorems.  Each claim of the specification check is settled by exactly
one theorem below; shared lemmas precede them. -/

lemma length_enumFrom_filterMap_colon (l : List Char) (n : Nat) :
    ((List.enumFrom n l).filterMap
      (fun ic => if ic.2 = ':' then some ic.1 else none)).length = l.count ':' := by
  induction l generalizing n with
  | nil => rfl
  | cons c cs ih =>
    by_cases hc : c = ':' <;>
      simp [List.enumFrom, List.count_cons, hc, ih]

lemma length_colonIndices (s : String) :
    (colonIndices s).length = s.data.count ':' := by
  unfold colonIndices
  rw [List.enum]
  exact length_enumFrom_filterMap_colon s.data 0

/-- C7: ARN parsing fails with `MissingPrefix` exactly when the input does
not start with `arn:`, fails with `InvalidFormat` exactly when it starts
with `arn:` but holds fewer than five colons, and succeeds on every input
that starts with `arn:` and holds five or more colons; in particular the
resource-side-colon example of the spec is accepted. -/
theorem arn_parsing_characterization (s : String) :
    (ARN.fromStr s = .error ARNParseError.PrefixMissing
      ↔ "arn:".data.isPrefixOf s.data = false)
    ∧ (ARN.fromStr s = .error ARNParseError.InvalidFormat ↔
        ("arn:".data.isPrefixOf s.data = true ∧ s.data.count ':' < 5))
    ∧ ((∃ a, ARN.fromStr s = .ok a) ↔
        ("arn:".data.isPrefixOf s.data = true ∧ 5 ≤ s.data.count ':'))
    ∧ (∃ a, ARN.fromStr "arn:aws:s3:::BUCKET/home/$\x7baws:username\x7d" = .ok a) := by
  have hex : ∃ a, ARN.fromStr "arn:aws:s3:::BUCKET/home/$\x7baws:username\x7d" = .ok a :=
    ⟨⟨"arn:aws:s3:::BUCKET/home/$\x7baws:username\x7d", [3, 7, 10, 11, 12, 30]⟩, by decide⟩
  by_cases h : "arn:".data.isPrefixOf s.data
  · by_cases h5 : s.data.count ':' < 5
    · have hval : ARN.fromStr s = .error ARNParseError.InvalidFormat := by
        simp [ARN.fromStr, h, length_colonIndices, h5]
      rw [hval]
      refine ⟨⟨fun hc => absurd hc (by simp), fun hc => absurd h (by simp [hc])⟩,
        ⟨fun _ => ⟨h, h5⟩, fun _ => rfl⟩,
        ⟨fun hc => ?_, fun hc => absurd hc.2 (by omega)⟩, hex⟩
      obtain ⟨a, ha⟩ := hc
      exact absurd ha (by simp)
    · have hval : ARN.fromStr s = .ok ⟨s, colonIndices s⟩ := by
        simp [ARN.fromStr, h, length_colonIndices, h5]
      rw [hval]
      refine ⟨⟨fun hc => absurd hc (by simp), fun hc => absurd h (by simp [hc])⟩,
        ⟨fun hc => absurd hc (by simp), fun hc => absurd hc.2 h5⟩,
        ⟨fun _ => ⟨h, by omega⟩, fun _ => ⟨⟨s, colonIndices s⟩, rfl⟩⟩, hex⟩
  · have hval : ARN.fromStr s = .error ARNParseError.PrefixMissing := by
      simp [ARN.fromStr, h]
    rw [hval]
    refine ⟨⟨fun _ => Bool.eq_false_iff.mpr h, fun _ => rfl⟩,
      ⟨fun hc => absurd hc (by simp), fun hc => absurd hc.1 h⟩,
      ⟨fun hc => ?_, fun hc => absurd hc.1 h⟩, hex⟩
    obtain ⟨a, ha⟩ := hc
    exact absurd ha (by simp)

/-- C8: for every operator and non-empty target list, `ForAllValues` on an
absent context key is `Ok(true)` and `ForAnyValue` is `Ok(false)`; the
`Null` quantifier with the single target `"true"` returns `Ok(true)`
exactly when the context key is absent. -/
theorem quantifier_absent_key (op : Operator) (targets : List String)
    (htargets : targets ≠ []) (values : Option (List String)) :
    Quantifier.matches (.ForAllValues op) none targets = .ok true
    ∧ Quantifier.matches (.ForAnyValue op) none targets = .ok false
    ∧ (Quantifier.matches .Null values ["true"] = .ok true ↔ values = none) := by
  refine ⟨rfl, rfl, ?_⟩
  simp [Quantifier.matches, matches_null, Option.isNone_iff_eq_none]

theorem quantifier_absent_key_witness :
    Quantifier.matches (.ForAllValues .StringEquals) none ["a"] = .ok true
    ∧ Quantifier.matches (.ForAnyValue .StringEquals) none ["a"] = .ok false
    ∧ (Quantifier.matches .Null none ["true"] = .ok true ↔ (none : Option (List String)) = none) :=
  quantifier_absent_key .StringEquals ["a"] (by simp) none

/-- C6 counterexample: the wired evaluator `ConditionSet::matches` performs
no cardinality check for `Null`; with two targets and the key present it
returns `Ok(false)` (driven by the first target alone) instead of an
error. -/
theorem null_two_targets_present_counterexample :
    ConditionSet.matches ⟨[(ConditionOperator.Null, [("k", ["true", "false"])])]⟩
      (fun k => if k = "k" then some ["v"] else none) = .ok false := rfl

/-- C6 (amended): in the quantifier evaluator (`matches_null`), a `Null`
condition whose target list does not hold exactly one element returns an
error — the `anyhow!` cardinality message, not `ConditionError::
TooManyValues` — for every context value list, present or absent; the
evaluator wired to `Statement` (`ConditionSet::matches` in `condition.rs`)
performs no such check. -/
theorem matches_null_cardinality (values : Option (List String))
    (targets : List String) (h : targets.length ≠ 1) :
    Quantifier.matches Quantifier.Null values targets
      = .error (.msg "Null condition must take exactly one argument") := by
  simp [Quantifier.matches, matches_null, h]

theorem matches_null_cardinality_witness :
    Quantifier.matches Quantifier.Null (some ["v"]) ["true", "false"]
      = .error (.msg "Null condition must take exactly one argument") :=
  matches_null_cardinality (some ["v"]) ["true", "false"] (by simp)

/-- C4 counterexample: the operator parser is an exact token match with no
`IfExists` stripping, so the quantified key `StringEqualsIfExists` is
rejected rather than parsed. -/
theorem ifexists_parse_counterexample :
    ConditionOperator.tryFrom "StringEqualsIfExists"
      = .error (.wrongType "unrecognized condition operator") := rfl

/-- C4 (amended): a `Condition` whose quantified-operator key is
`StringEqualsIfExists` fails to parse (unrecognized condition operator), so
no condition set is built and evaluation never takes place. -/
theorem ifexists_conditionset_rejected :
    ConditionSet.tryFrom (.obj [("StringEqualsIfExists",
        .obj [("aws:PrincipalTag/team", .str "infra")])])
      = .error (.wrongType "unrecognized condition operator") := rfl

lemma foldl_conditionKeyStep_error (op : ConditionOperator) (vm : ValueMap)
    (e : EvalError) (l : List (String × List String)) :
    l.foldl (conditionKeyStep op vm) (.error e) = .error e := by
  induction l with
  | nil => rfl
  | cons kv l ih => simpa [conditionKeyStep] using ih

lemma foldl_conditionGroupStep_error (vm : ValueMap) (e : EvalError)
    (l : List (ConditionOperator × ConditionValues)) :
    l.foldl (conditionGroupStep vm) (.error e) = .error e := by
  induction l with
  | nil => rfl
  | cons entry l ih => simpa [conditionGroupStep] using ih

/-- C2 counterexample: a statement whose condition set holds a
`StringEquals` entry (no `IfExists` shape exists in this evaluator) on a
context key absent from the effective value map: `check_action` returns the
`NotImplemented` error rather than `Ok(Unspecified)`. -/
theorem absent_key_statement_counterexample :
    Statement.check_action
      ⟨none, .Allow, .NoneClause, .Action [.Any], .Resource [.Any],
        some ⟨[(.StringEquals, [("aws:PrincipalTag/team", ["infra"])])]⟩⟩
      ⟨"s3:GetObject", 2⟩ ⟨"arn:aws:s3:::x", [3, 7, 10, 11, 12]⟩
      ⟨fun _ => none, fun _ => none⟩
      = .error (.condErr .NotImplemented) := rfl

/-- C2 (amended): a condition entry for a non-`Null` operator keyed on a
context key absent from the effective value map is not treated as a
non-match: `ConditionSet::matches` returns the `NotImplemented` error (the
`IfExists` handling is an unimplemented TODO in the wired evaluator), which
`check_action` propagates instead of returning `Ok(Unspecified)`. -/
theorem absent_key_non_null_error (op : ConditionOperator) (key : String)
    (targets : List String) (restKeys : List (String × List String))
    (rest : List (ConditionOperator × ConditionValues)) (vm : ValueMap)
    (hop : op ≠ ConditionOperator.Null) (hkey : vm key = none) :
    ConditionSet.matches ⟨(op, (key, targets) :: restKeys) :: rest⟩ vm
      = .error (.condErr .NotImplemented) := by
  unfold ConditionSet.matches
  simp only [List.foldl_cons]
  have h2 : conditionKeyStep op vm (.ok true) (key, targets)
      = .error (.condErr .NotImplemented) := by
    simp [conditionKeyStep, hkey, hop]
  have h1 : conditionGroupStep vm (.ok true) (op, (key, targets) :: restKeys)
      = .error (.condErr .NotImplemented) := by
    simp only [conditionGroupStep, List.foldl_cons]
    rw [h2, foldl_conditionKeyStep_error]
  rw [h1, foldl_conditionGroupStep_error]

theorem absent_key_non_null_error_witness :
    ConditionSet.matches ⟨[(ConditionOperator.StringEquals, [("team", ["infra"])])]⟩
      (fun _ => none) = .error (.condErr .NotImplemented) :=
  absent_key_non_null_error .StringEquals "team" ["infra"] [] [] (fun _ => none)
    (by simp) rfl

/-- C10: for a condition entry whose operator is not `Null`, a context key
present in the value map with a value-list length other than one makes
`ConditionSet::matches` return the `TooManyValues` error (stated with the
entry at the head of the iteration; any entries after it are arbitrary, and
an entry evaluated earlier could only short-circuit with `false` or another
error first).  The evaluator therefore never applies an operator to a
multi-valued or empty-valued context key. -/
theorem present_multivalued_too_many (op : ConditionOperator) (key : String)
    (targets : List String) (restKeys : List (String × List String))
    (rest : List (ConditionOperator × ConditionValues)) (vm : ValueMap)
    (vs : List String) (hop : op ≠ ConditionOperator.Null)
    (hkey : vm key = some vs) (hlen : vs.length ≠ 1) :
    ConditionSet.matches ⟨(op, (key, targets) :: restKeys) :: rest⟩ vm
      = .error (.condErr .TooManyValues) := by
  unfold ConditionSet.matches
  simp only [List.foldl_cons]
  have h2 : conditionKeyStep op vm (.ok true) (key, targets)
      = .error (.condErr .TooManyValues) := by
    simp [conditionKeyStep, hkey, hop, hlen]
  have h1 : conditionGroupStep vm (.ok true) (op, (key, targets) :: restKeys)
      = .error (.condErr .TooManyValues) := by
    simp only [conditionGroupStep, List.foldl_cons]
    rw [h2, foldl_conditionKeyStep_error]
  rw [h1, foldl_conditionGroupStep_error]

theorem present_multivalued_too_many_witness :
    ConditionSet.matches ⟨[(ConditionOperator.StringEquals, [("k", ["t"])])]⟩
      (fun k => if k = "k" then some ["v1", "v2"] else none)
      = .error (.condErr .TooManyValues) :=
  present_multivalued_too_many .StringEquals "k" ["t"] [] []
    (fun k => if k = "k" then some ["v1", "v2"] else none) ["v1", "v2"]
    (by simp) rfl (by simp)

/-- C3: evaluating the projection at the failing input.  A statement JSON
object with `NotAction: "s3:GetObject"` and no `Action` member projects to
a `NotAction` clause with an *empty* constraint list (the source's
`(true, false)` arm passes the null `Action` member to `parse_actions`),
so the statement then matches every action — including `s3:GetObject`,
which the claim requires to be a non-match. -/
theorem notaction_projection_bug :
    Statement.tryFrom (.obj [("Effect", .str "Allow"),
        ("NotAction", .str "s3:GetObject"), ("Resource", .str "*")])
      = .ok ⟨none, .Allow, .NoneClause, .NotAction [], .Resource [.Any], none⟩
    ∧ Statement.check_action
        ⟨none, .Allow, .NoneClause, .NotAction [], .Resource [.Any], none⟩
        ⟨"s3:GetObject", 2⟩ ⟨"arn:aws:s3:::x", [3, 7, 10, 11, 12]⟩
        ⟨fun _ => none, fun _ => none⟩ = .ok CheckResult.Allow :=
  ⟨rfl, rfl⟩

/-- C9: for every operator pair with a `Not` sibling —
`StringEquals`/`StringNotEquals`, `StringEqualsIgnoreCase`/
`StringNotEqualsIgnoreCase`, `StringLike`/`StringNotLike`,
`NumericEquals`/`NumericNotEquals`, `DateEquals`/`DateNotEquals`,
`IpAddress`/`NotIpAddress`, `ArnEquals`/`ArnNotEquals`,
`ArnLike`/`ArnNotLike` — whenever neither evaluation returns an error, the
operator's result is the boolean negation of its sibling's. -/
lemma except_map_eq_ok {ε α β : Type} (f : α → β) (x : Except ε α) (b : β) :
    x.map f = .ok b ↔ ∃ a, x = .ok a ∧ f a = b := by
  cases x <;> simp [Except.map]

theorem not_sibling_negation (p : Operator × Operator) (hp : p ∈ notSiblingPairs)
    (v t : String) (b b' : Bool)
    (h1 : Operator.matches p.1 v t = .ok b)
    (h2 : Operator.matches p.2 v t = .ok b') :
    b = !b' := by
  simp only [notSiblingPairs, List.mem_cons, List.not_mem_nil, or_false] at hp
  rcases hp with rfl | rfl | rfl | rfl | rfl | rfl | rfl | rfl <;>
    simp only [Operator.matches] at h1 h2
  · injection h1 with h1; injection h2 with h2
    subst h1; subst h2; simp [bne]
  · injection h1 with h1; injection h2 with h2
    subst h1; subst h2; simp [bne]
  · injection h1 with h1; injection h2 with h2
    subst h1; subst h2; simp
  · obtain ⟨o, ho, hb⟩ := (except_map_eq_ok _ _ _).mp h1
    obtain ⟨o', ho', hb'⟩ := (except_map_eq_ok _ _ _).mp h2
    rw [ho] at ho'; injection ho' with ho'
    subst ho'; subst hb; subst hb'; simp [bne]
  · obtain ⟨o, ho, hb⟩ := (except_map_eq_ok _ _ _).mp h1
    obtain ⟨o', ho', hb'⟩ := (except_map_eq_ok _ _ _).mp h2
    rw [ho] at ho'; injection ho' with ho'
    subst ho'; subst hb; subst hb'; simp [bne]
  · obtain ⟨r, hr, hb'⟩ := (except_map_eq_ok _ _ _).mp h2
    rw [h1] at hr; injection hr with hr
    subst hr; subst hb'; simp
  · obtain ⟨r, hr, hb'⟩ := (except_map_eq_ok _ _ _).mp h2
    rw [h1] at hr; injection hr with hr
    subst hr; subst hb'; simp
  · obtain ⟨r, hr, hb'⟩ := (except_map_eq_ok _ _ _).mp h2
    rw [h1] at hr; injection hr with hr
    subst hr; subst hb'; simp

theorem not_sibling_negation_witness :
    (Operator.StringEquals, Operator.StringNotEquals) ∈ notSiblingPairs
    ∧ Operator.matches .StringEquals "a" "a" = .ok true
    ∧ Operator.matches .StringNotEquals "a" "a" = .ok false
    ∧ true = !false :=
  ⟨by decide, rfl, rfl,
    not_sibling_negation (.StringEquals, .StringNotEquals) (by decide) "a" "a"
      true false rfl rfl⟩

lemma starMatchList_star (ps ts : List Char) :
    starMatchList ('*' :: ps) ts
      = (List.range (ts.length + 1)).any (fun i =>
        (ts.take i).all (fun c => !(c == '\n')) && starMatchList ps (ts.drop i)) := by
  simp [starMatchList]

lemma starMatchList_lit_nil (p : Char) (ps : List Char) (hp : p ≠ '*') :
    starMatchList (p :: ps) [] = false := by
  simp [starMatchList, hp]

lemma starMatchList_lit_cons (p : Char) (ps : List Char) (hp : p ≠ '*')
    (t : Char) (ts : List Char) :
    starMatchList (p :: ps) (t :: ts) = (p == t && starMatchList ps ts) := by
  simp [starMatchList, hp]

lemma StarGlob.lit_inv {p : Char} {ps ts : List Char} (hp : p ≠ '*')
    (h : StarGlob (p :: ps) ts) : ∃ ts', ts = p :: ts' ∧ StarGlob ps ts' := by
  cases h with
  | star ps2 ts1 ts2 hnl hsub => exact absurd rfl hp
  | lit c ps2 ts2 hc hsub => exact ⟨ts2, rfl, hsub⟩

lemma starMatchList_iff (ps : List Char) :
    ∀ ts, starMatchList ps ts = true ↔ StarGlob ps ts := by
  induction ps with
  | nil =>
    intro ts
    cases ts with
    | nil => exact ⟨fun _ => .nil, fun _ => rfl⟩
    | cons t ts =>
      constructor
      · intro h; simp [starMatchList] at h
      · intro h; cases h
  | cons p ps ih =>
    intro ts
    by_cases hp : p = '*'
    · subst hp
      constructor
      · intro h
        rw [starMatchList_star, List.any_eq_true] at h
        obtain ⟨i, _, hc⟩ := h
        rw [Bool.and_eq_true] at hc
        obtain ⟨hall, hrec⟩ := hc
        have hnl : ∀ c ∈ ts.take i, c ≠ '\n' := by
          intro c hcmem
          simpa using List.all_eq_true.mp hall c hcmem
        exact List.take_append_drop i ts ▸
          StarGlob.star ps (ts.take i) (ts.drop i) hnl ((ih _).mp hrec)
      · intro h
        cases h with
        | star ps2 ts1 ts2 hnl hsub =>
          rw [starMatchList_star, List.any_eq_true]
          refine ⟨ts1.length, by simp [List.mem_range]; omega, ?_⟩
          rw [Bool.and_eq_true, List.take_left, List.drop_left]
          exact ⟨List.all_eq_true.mpr (fun c hc => by simpa using hnl c hc),
            (ih _).mpr hsub⟩
        | lit c ps2 ts2 hc hsub => exact absurd rfl hc
    · cases ts with
      | nil =>
        constructor
        · intro h
          rw [starMatchList_lit_nil p ps hp] at h
          cases h
        · intro h
          obtain ⟨ts', hts, _⟩ := h.lit_inv hp
          cases hts
      | cons t ts =>
        constructor
        · intro h
          rw [starMatchList_lit_cons p ps hp, Bool.and_eq_true, beq_iff_eq] at h
          obtain ⟨rfl, h⟩ := h
          exact StarGlob.lit p ps ts hp ((ih _).mp h)
        · intro h
          obtain ⟨ts', hts, hsub⟩ := h.lit_inv hp
          injection hts with h1 h2
          subst h1; subst h2
          rw [starMatchList_lit_cons _ _ hp, Bool.and_eq_true, beq_iff_eq]
          exact ⟨rfl, (ih _).mpr hsub⟩

lemma StarGlob.eq_of_no_star {ps ts : List Char} (h : StarGlob ps ts) :
    '*' ∉ ps → ps = ts := by
  induction h with
  | nil => simp
  | star ps ts1 ts2 _ _ _ => intro hns; simp at hns
  | lit c ps ts hc _ ih =>
    intro hns
    rw [ih (fun hm => hns (List.mem_cons_of_mem _ hm))]

lemma StarGlob.refl_of_no_star (ps : List Char) (hns : '*' ∉ ps) : StarGlob ps ps := by
  induction ps with
  | nil => exact .nil
  | cons c cs ih =>
    exact StarGlob.lit c cs cs (fun hc => hns (hc ▸ List.mem_cons_self c cs))
      (ih (fun hm => hns (List.mem_cons_of_mem _ hm)))

/-- C5 counterexample: the resource matcher treats `?` as a literal
character, not as the one-character wildcard of the glob language:
the pattern `arn:aws:s3:::x?` does not match the resource
`arn:aws:s3:::xa`, although the repository's own glob matcher (the glob
language of the spec, where `?` matches any one character) matches it. -/
theorem resource_qmark_counterexample :
    ResourceConstraint.matches
        (.Pattern ⟨"arn:aws:s3:::x?", [3, 7, 10, 11, 12]⟩)
        ⟨"arn:aws:s3:::xa", [3, 7, 10, 11, 12]⟩ = false
    ∧ glob_matches "arn:aws:s3:::x?" "arn:aws:s3:::xa" = true := ⟨rfl, rfl⟩

/-- C5 (amended): `ResourceConstraint::Pattern(p).matches(r)` is true
exactly when `p`'s raw string matches `r`'s raw string under the star-only
language in which `*` matches any possibly empty sequence of non-newline
characters and every other character — `?` included — matches only
itself. -/
theorem resource_pattern_star_semantics (p r : ARN) :
    ResourceConstraint.matches (.Pattern p) r = true
      ↔ StarGlob p.value.data r.value.data := by
  show pattern_matches p.value r.value = true ↔ _
  unfold pattern_matches
  by_cases hc : p.value.data.contains '*'
  · simp only [hc, Bool.not_true, Bool.false_eq_true, if_false]
    exact starMatchList_iff _ _
  · have hns : '*' ∉ p.value.data := by simpa using hc
    simp only [hc, Bool.not_false, if_true]
    constructor
    · intro h
      have : p.value = r.value := by
        exact eq_of_beq h
      rw [← this]
      exact StarGlob.refl_of_no_star _ hns
    · intro h
      have hdata : p.value.data = r.value.data := h.eq_of_no_star hns
      have : p.value = r.value := String.ext hdata
      simp [this]

lemma except_isOk_iff {ε α : Type} (x : Except ε α) :
    x.isOk = true ↔ ∃ v, x = .ok v := by
  cases x <;> simp [Except.isOk, Except.toBool]

section PolicyFold

variable (eval : Statement → Except EvalError CheckResult)

lemma foldl_policyStep_error (e : EvalError) (l : List Statement) :
    l.foldl (policyStep eval) (.error e) = .error e := by
  induction l with
  | nil => rfl
  | cons s l ih => simpa [policyStep] using ih

lemma foldl_policyStep_deny (l : List Statement) :
    l.foldl (policyStep eval) (.ok .Deny) = .ok .Deny := by
  induction l with
  | nil => rfl
  | cons s l ih => simpa [policyStep] using ih

lemma policyStep_allow_of_not_deny {s : Statement}
    (hok : (eval s).isOk = true) (hnd : eval s ≠ .ok .Deny) :
    policyStep eval (.ok .Allow) s = .ok .Allow := by
  unfold policyStep
  by_cases he : s.effect = Effect.Deny
  · rw [if_pos he]
    obtain ⟨v, hv⟩ := (except_isOk_iff _).mp hok
    rw [hv]
    cases v with
    | Deny => exact absurd hv hnd
    | Allow => rfl
    | Unspecified => rfl
  · rw [if_neg he]

lemma foldl_policyStep_allow_no_deny (l : List Statement)
    (Hok : ∀ s ∈ l, (eval s).isOk = true)
    (Hnd : ∀ s ∈ l, eval s ≠ .ok .Deny) :
    l.foldl (policyStep eval) (.ok .Allow) = .ok .Allow := by
  induction l with
  | nil => rfl
  | cons s l ih =>
    rw [List.foldl_cons,
      policyStep_allow_of_not_deny eval (Hok s (by simp)) (Hnd s (by simp))]
    exact ih (fun x hx => Hok x (by simp [hx])) (fun x hx => Hnd x (by simp [hx]))

lemma foldl_policyStep_allow_deny (l : List Statement)
    (Hok : ∀ s ∈ l, (eval s).isOk = true)
    (Hde : ∀ s ∈ l, eval s = .ok .Deny → s.effect = .Deny)
    (Hex : ∃ s ∈ l, eval s = .ok .Deny) :
    l.foldl (policyStep eval) (.ok .Allow) = .ok .Deny := by
  induction l with
  | nil => simp at Hex
  | cons s l ih =>
    rw [List.foldl_cons]
    by_cases hsd : eval s = .ok .Deny
    · have hstep : policyStep eval (.ok .Allow) s = .ok .Deny := by
        unfold policyStep
        rw [if_pos (Hde s (by simp) hsd), hsd]
      rw [hstep]
      exact foldl_policyStep_deny eval l
    · rw [policyStep_allow_of_not_deny eval (Hok s (by simp)) hsd]
      refine ih (fun x hx => Hok x (by simp [hx])) (fun x hx => Hde x (by simp [hx])) ?_
      rcases Hex with ⟨x, hm, hv⟩
      rcases List.mem_cons.mp hm with rfl | hm'
      · exact absurd hv hsd
      · exact ⟨x, hm', hv⟩

lemma foldl_policyStep_cases (l : List Statement)
    (Hok : ∀ s ∈ l, (eval s).isOk = true)
    (Hde : ∀ s ∈ l, eval s = .ok .Deny → s.effect = .Deny) :
    ((∃ s ∈ l, eval s = .ok .Deny) →
      l.foldl (policyStep eval) (.ok .Unspecified) = .ok .Deny)
    ∧ ((¬ ∃ s ∈ l, eval s = .ok .Deny) → (∃ s ∈ l, eval s = .ok .Allow) →
      l.foldl (policyStep eval) (.ok .Unspecified) = .ok .Allow)
    ∧ ((¬ ∃ s ∈ l, eval s = .ok .Deny) → (¬ ∃ s ∈ l, eval s = .ok .Allow) →
      l.foldl (policyStep eval) (.ok .Unspecified) = .ok .Unspecified) := by
  induction l with
  | nil => exact ⟨by simp, by simp, fun _ _ => rfl⟩
  | cons s l ih =>
    obtain ⟨ih1, ih2, ih3⟩ :=
      ih (fun x hx => Hok x (by simp [hx])) (fun x hx => Hde x (by simp [hx]))
    obtain ⟨v, hv⟩ := (except_isOk_iff _).mp (Hok s (by simp))
    have hstep : policyStep eval (.ok .Unspecified) s = eval s := rfl
    rw [List.foldl_cons, hstep, hv]
    cases v with
    | Deny =>
      exact ⟨fun _ => foldl_policyStep_deny eval l,
        fun hnd _ => absurd ⟨s, by simp, hv⟩ hnd,
        fun hnd _ => absurd ⟨s, by simp, hv⟩ hnd⟩
    | Allow =>
      refine ⟨fun hex => ?_, fun hnd _ => ?_,
        fun _ hal => absurd ⟨s, by simp, hv⟩ hal⟩
      · rcases hex with ⟨x, hm, hx⟩
        rcases List.mem_cons.mp hm with rfl | hm'
        · rw [hv] at hx; simp at hx
        · exact foldl_policyStep_allow_deny eval l
            (fun y hy => Hok y (by simp [hy])) (fun y hy => Hde y (by simp [hy]))
            ⟨x, hm', hx⟩
      · refine foldl_policyStep_allow_no_deny eval l
          (fun y hy => Hok y (by simp [hy])) ?_
        intro y hy hcon
        exact hnd ⟨y, by simp [hy], hcon⟩
    | Unspecified =>
      refine ⟨fun hex => ?_, fun hnd hal => ?_, fun hnd hal => ?_⟩
      · rcases hex with ⟨x, hm, hx⟩
        rcases List.mem_cons.mp hm with rfl | hm'
        · rw [hv] at hx; simp at hx
        · exact ih1 ⟨x, hm', hx⟩
      · rcases hal with ⟨x, hm, hx⟩
        rcases List.mem_cons.mp hm with rfl | hm'
        · rw [hv] at hx; simp at hx
        · exact ih2 (fun ⟨y, hy, hcon⟩ => hnd ⟨y, by simp [hy], hcon⟩) ⟨x, hm', hx⟩
      · exact ih3 (fun ⟨y, hy, hcon⟩ => hnd ⟨y, by simp [hy], hcon⟩)
          (fun ⟨y, hy, hcon⟩ => hal ⟨y, by simp [hy], hcon⟩)

lemma foldl_policyStep_characterization (l : List Statement)
    (Hok : ∀ s ∈ l, (eval s).isOk = true)
    (Hde : ∀ s ∈ l, eval s = .ok .Deny → s.effect = .Deny) :
    (l.foldl (policyStep eval) (.ok .Unspecified) = .ok .Deny
      ↔ ∃ s ∈ l, eval s = .ok .Deny)
    ∧ (l.foldl (policyStep eval) (.ok .Unspecified) = .ok .Allow
      ↔ ((¬ ∃ s ∈ l, eval s = .ok .Deny) ∧ ∃ s ∈ l, eval s = .ok .Allow))
    ∧ (l.foldl (policyStep eval) (.ok .Unspecified) = .ok .Unspecified
      ↔ ((¬ ∃ s ∈ l, eval s = .ok .Deny) ∧ ¬ ∃ s ∈ l, eval s = .ok .Allow)) := by
  obtain ⟨h1, h2, h3⟩ := foldl_policyStep_cases eval l Hok Hde
  by_cases hd : ∃ s ∈ l, eval s = .ok .Deny
  · rw [h1 hd]
    exact ⟨⟨fun _ => hd, fun _ => rfl⟩,
      ⟨fun hc => by simp at hc, fun hr => absurd hd hr.1⟩,
      ⟨fun hc => by simp at hc, fun hr => absurd hd hr.1⟩⟩
  · by_cases ha : ∃ s ∈ l, eval s = .ok .Allow
    · rw [h2 hd ha]
      exact ⟨⟨fun hc => by simp at hc, fun hr => absurd hr hd⟩,
        ⟨fun _ => ⟨hd, ha⟩, fun _ => rfl⟩,
        ⟨fun hc => by simp at hc, fun hr => absurd ha hr.2⟩⟩
    · rw [h3 hd ha]
      exact ⟨⟨fun hc => by simp at hc, fun hr => absurd hr hd⟩,
        ⟨fun hc => by simp at hc, fun hr => absurd hr.2 ha⟩,
        ⟨fun _ => ⟨hd, ha⟩, fun _ => rfl⟩⟩

lemma foldl_policyStep_perm (l l' : List Statement) (hperm : l.Perm l')
    (Hok : ∀ s ∈ l, (eval s).isOk = true)
    (Hde : ∀ s ∈ l, eval s = .ok .Deny → s.effect = .Deny) :
    l.foldl (policyStep eval) (.ok .Unspecified)
      = l'.foldl (policyStep eval) (.ok .Unspecified) := by
  have Hok' : ∀ s ∈ l', (eval s).isOk = true :=
    fun s hs => Hok s (hperm.mem_iff.mpr hs)
  have Hde' : ∀ s ∈ l', eval s = .ok .Deny → s.effect = .Deny :=
    fun s hs => Hde s (hperm.mem_iff.mpr hs)
  obtain ⟨c1, c2, c3⟩ := foldl_policyStep_characterization eval l Hok Hde
  obtain ⟨c1', c2', c3'⟩ := foldl_policyStep_characterization eval l' Hok' Hde'
  by_cases hd : ∃ s ∈ l, eval s = .ok .Deny
  · have hdq : ∃ s ∈ l', eval s = .ok .Deny := by
      rcases hd with ⟨s, hm, hvv⟩
      exact ⟨s, hperm.mem_iff.mp hm, hvv⟩
    rw [c1.mpr hd, c1'.mpr hdq]
  · have hd' : ¬ ∃ s ∈ l', eval s = .ok .Deny :=
      fun ⟨s, hm, hvv⟩ => hd ⟨s, hperm.mem_iff.mpr hm, hvv⟩
    by_cases ha : ∃ s ∈ l, eval s = .ok .Allow
    · have haq : ∃ s ∈ l', eval s = .ok .Allow := by
        rcases ha with ⟨s, hm, hvv⟩
        exact ⟨s, hperm.mem_iff.mp hm, hvv⟩
      rw [c2.mpr ⟨hd, ha⟩, c2'.mpr ⟨hd', haq⟩]
    · have ha' : ¬ ∃ s ∈ l', eval s = .ok .Allow :=
        fun ⟨s, hm, hvv⟩ => ha ⟨s, hperm.mem_iff.mpr hm, hvv⟩
      rw [c3.mpr ⟨hd, ha⟩, c3'.mpr ⟨hd', ha'⟩]

end PolicyFold

lemma checkAction_ok_deny_effect (s : Statement) (a : Action) (r : ARN) (c : Context)
    (h : s.check_action a r c = .ok .Deny) : s.effect = .Deny := by
  cases he : s.effect with
  | Deny => rfl
  | Allow =>
    exfalso
    unfold Statement.check_action at h
    rw [he] at h
    dsimp only [] at h
    split_ifs at h <;> try simp at h
    split at h <;> simp at h

lemma check_ok_deny_effect (s : Statement) (pr : Principal) (a : Action) (r : ARN)
    (c : Context) (h : s.check pr a r c = .ok .Deny) : s.effect = .Deny := by
  unfold Statement.check at h
  dsimp only [] at h
  split_ifs at h
  · exact checkAction_ok_deny_effect s a r c h
  · simp at h

/-- C1: for every policy and request such that no statement evaluation
returns an error, `Policy::check_action` (and `Policy::check`) returns
`Deny` iff some statement returns `Deny`, otherwise `Allow` iff some
statement returns `Allow`, otherwise `Unspecified`; consequently the final
decision is unchanged under any permutation of the statement list. -/
theorem policy_deny_overrides (p : Policy) (pr : Principal) (a : Action) (r : ARN)
    (c : Context)
    (HokA : ∀ s ∈ p.statements, (s.check_action a r c).isOk = true)
    (HokP : ∀ s ∈ p.statements, (s.check pr a r c).isOk = true) :
    ((p.check_action a r c = .ok .Deny
        ↔ ∃ s ∈ p.statements, s.check_action a r c = .ok .Deny)
      ∧ (p.check_action a r c = .ok .Allow
        ↔ ((¬ ∃ s ∈ p.statements, s.check_action a r c = .ok .Deny)
            ∧ ∃ s ∈ p.statements, s.check_action a r c = .ok .Allow))
      ∧ (p.check_action a r c = .ok .Unspecified
        ↔ ((¬ ∃ s ∈ p.statements, s.check_action a r c = .ok .Deny)
            ∧ ¬ ∃ s ∈ p.statements, s.check_action a r c = .ok .Allow)))
    ∧ ((p.check pr a r c = .ok .Deny
        ↔ ∃ s ∈ p.statements, s.check pr a r c = .ok .Deny)
      ∧ (p.check pr a r c = .ok .Allow
        ↔ ((¬ ∃ s ∈ p.statements, s.check pr a r c = .ok .Deny)
            ∧ ∃ s ∈ p.statements, s.check pr a r c = .ok .Allow))
      ∧ (p.check pr a r c = .ok .Unspecified
        ↔ ((¬ ∃ s ∈ p.statements, s.check pr a r c = .ok .Deny)
            ∧ ¬ ∃ s ∈ p.statements, s.check pr a r c = .ok .Allow)))
    ∧ (∀ q : Policy, q.statements.Perm p.statements →
        q.check_action a r c = p.check_action a r c
        ∧ q.check pr a r c = p.check pr a r c) := by
  have HdeA : ∀ s ∈ p.statements, s.check_action a r c = .ok .Deny → s.effect = .Deny :=
    fun s _ h => checkAction_ok_deny_effect s a r c h
  have HdeP : ∀ s ∈ p.statements, s.check pr a r c = .ok .Deny → s.effect = .Deny :=
    fun s _ h => check_ok_deny_effect s pr a r c h
  refine ⟨foldl_policyStep_characterization _ p.statements HokA HdeA,
    foldl_policyStep_characterization _ p.statements HokP HdeP, ?_⟩
  intro q hperm
  have HokA' : ∀ s ∈ q.statements, (s.check_action a r c).isOk = true :=
    fun s hs => HokA s (hperm.mem_iff.mp hs)
  have HdeA' : ∀ s ∈ q.statements, s.check_action a r c = .ok .Deny → s.effect = .Deny :=
    fun s _ h => checkAction_ok_deny_effect s a r c h
  have HokP' : ∀ s ∈ q.statements, (s.check pr a r c).isOk = true :=
    fun s hs => HokP s (hperm.mem_iff.mp hs)
  have HdeP' : ∀ s ∈ q.statements, s.check pr a r c = .ok .Deny → s.effect = .Deny :=
    fun s _ h => check_ok_deny_effect s pr a r c h
  exact ⟨foldl_policyStep_perm _ q.statements p.statements hperm HokA' HdeA',
    foldl_policyStep_perm _ q.statements p.statements hperm HokP' HdeP'⟩

theorem policy_deny_overrides_witness :
    Policy.check_action
      ⟨none, none, [⟨none, .Allow, .NoneClause, .Action [.Any], .Resource [.Any], none⟩]⟩
      ⟨"s3:GetObject", 2⟩ ⟨"arn:aws:s3:::x", [3, 7, 10, 11, 12]⟩
      ⟨fun _ => none, fun _ => none⟩ = .ok .Allow := by
  have h := policy_deny_overrides
    ⟨none, none, [⟨none, .Allow, .NoneClause, .Action [.Any], .Resource [.Any], none⟩]⟩
    (.Service "ecs.amazonaws.com") ⟨"s3:GetObject", 2⟩
    ⟨"arn:aws:s3:::x", [3, 7, 10, 11, 12]⟩ ⟨fun _ => none, fun _ => none⟩
    (by intro s hs; rcases List.mem_singleton.mp hs with rfl; rfl)
    (by intro s hs; rcases List.mem_singleton.mp hs with rfl; rfl)
  refine h.1.2.1.mpr ⟨?_, ?_⟩
  · rintro ⟨s, hs, hv⟩
    rcases List.mem_singleton.mp hs with rfl
    exact absurd hv (by decide)
  · exact ⟨⟨none, .Allow, .NoneClause, .Action [.Any], .Resource [.Any], none⟩,
      List.mem_singleton.mpr rfl, rfl⟩

end AwsPolicy
